import Mathlib

/-!
Verification of the tool-call orchestration core of the portable Ollama agent
(`portable_agent.py`).  The development shallowly embeds, from the source:

* the JSON values produced by Python's `json.loads` on model output,
* the helper `extract_json_objects` (fence stripping via the two `re.sub`
  calls plus the character-level brace scan, lines 703-730),
* the dead whole-text fallback parse (lines 736-748),
* the tool-dispatch chain and the `send_message` orchestration loop
  (lines 751-846), with the model service and the tool bodies - external
  collaborators per the spec - abstracted as function parameters,
* `switch_model` (lines 570-577).

Machine strings are Lean `String`/`List Char`; the embedding is executable
throughout so that every concrete scenario evaluates by `rfl`/`decide`.
-/

namespace PortableAgent

/-- Opening brace character, written via its code point. -/
def lbr : Char := Char.ofNat 123

/-- Closing brace character, written via its code point. -/
def rbr : Char := Char.ofNat 125

/-- Backtick character, written via its code point. -/
def bq : Char := Char.ofNat 96

/-- Single-quote character as a one-character string, used by the Python
f-string error messages in `send_message`. -/
def sq : String := String.singleton (Char.ofNat 39)

/-- Boolean list-prefix test (pattern first), used for literal matching in
the regex model and the JSON parser. -/
def startsWithL : List Char → List Char → Bool
  | [], _ => true
  | _ :: _, [] => false
  | p :: ps, c :: cs => p = c && startsWithL ps cs

/-- Characters matched by Python's regex `\s` on ASCII input
(space, tab, newline, carriage return, vertical tab, form feed). -/
def pySpaceChar (c : Char) : Bool :=
  c = ' ' || c = Char.ofNat 9 || c = Char.ofNat 10 ||
  c = Char.ofNat 13 || c = Char.ofNat 11 || c = Char.ofNat 12

/-- Whitespace skipped by Python's `json` decoder between JSON tokens. -/
def jsonWs (c : Char) : Bool :=
  c = ' ' || c = Char.ofNat 9 || c = Char.ofNat 10 || c = Char.ofNat 13

/-- JSON values as returned by Python's `json.loads`.  Numbers keep their
source lexeme (the claims never compare numeric magnitudes); objects keep
their key/value pairs in parse order (Python's `dict` keeps the last value
for a duplicated key, which `lookupLast` below reproduces). -/
inductive Json where
  | null
  | bool (b : Bool)
  | num (lex : String)
  | str (s : String)
  | arr (elems : List Json)
  | obj (entries : List (String × Json))

/-- Value of a hexadecimal digit, for `\u` escapes. -/
def hexDigit? (c : Char) : Option Nat :=
  if '0' ≤ c ∧ c ≤ '9' then some (c.toNat - 48)
  else if 'a' ≤ c ∧ c ≤ 'f' then some (c.toNat - 87)
  else if 'A' ≤ c ∧ c ≤ 'F' then some (c.toNat - 55)
  else none

/-- Body of a JSON string literal, after the opening quote.  Mirrors the
strict-mode scanner of Python's `json`: raw control characters below 0x20
are rejected, the eight simple escapes and `\uXXXX` are accepted.
(Surrogate-pair combination is abstracted: each `\uXXXX` becomes one
code point.) -/
def parseStrBody : Nat → List Char → List Char → Option (String × List Char)
  | 0, _, _ => none
  | _ + 1, [], _ => none
  | fuel + 1, c :: rest, acc =>
    if c = '"' then some (String.mk acc.reverse, rest)
    else if c = '\\' then
      match rest with
      | [] => none
      | e :: rest2 =>
        if e = '"' then parseStrBody fuel rest2 ('"' :: acc)
        else if e = '\\' then parseStrBody fuel rest2 ('\\' :: acc)
        else if e = '/' then parseStrBody fuel rest2 ('/' :: acc)
        else if e = 'b' then parseStrBody fuel rest2 (Char.ofNat 8 :: acc)
        else if e = 'f' then parseStrBody fuel rest2 (Char.ofNat 12 :: acc)
        else if e = 'n' then parseStrBody fuel rest2 (Char.ofNat 10 :: acc)
        else if e = 'r' then parseStrBody fuel rest2 (Char.ofNat 13 :: acc)
        else if e = 't' then parseStrBody fuel rest2 (Char.ofNat 9 :: acc)
        else if e = 'u' then
          match rest2 with
          | h1 :: h2 :: h3 :: h4 :: rest3 =>
            match hexDigit? h1, hexDigit? h2, hexDigit? h3, hexDigit? h4 with
            | some a, some b, some c2, some d =>
              parseStrBody fuel rest3 (Char.ofNat (((a * 16 + b) * 16 + c2) * 16 + d) :: acc)
            | _, _, _, _ => none
          | _ => none
        else none
    else if c.toNat < 32 then none
    else parseStrBody fuel rest (c :: acc)

/-- Strict JSON number lexeme: `-?(0|[1-9][0-9]*)(\.[0-9]+)?([eE][+-]?[0-9]+)?`,
matching the `NUMBER_RE` of Python's `json` decoder.  An ill-formed optional
group is simply not consumed, as with the regex. -/
def parseNum (cs : List Char) : Option (String × List Char) :=
  let (neg, cs1) :=
    match cs with
    | '-' :: r => (['-'], r)
    | _ => (([] : List Char), cs)
  match cs1 with
  | [] => none
  | c :: rest =>
    if ¬ c.isDigit then none
    else
      let (intPart, rest1) :=
        if c = '0' then ([c], rest)
        else (c :: rest.takeWhile Char.isDigit, rest.dropWhile Char.isDigit)
      let (frac, rest2) :=
        match rest1 with
        | '.' :: r =>
          let ds := r.takeWhile Char.isDigit
          if ds.isEmpty then (([] : List Char), rest1)
          else ('.' :: ds, r.dropWhile Char.isDigit)
        | _ => (([] : List Char), rest1)
      let (expo, rest3) :=
        match rest2 with
        | e :: r =>
          if e = 'e' ∨ e = 'E' then
            let (sgn, r2) :=
              match r with
              | s :: r2 => if s = '+' ∨ s = '-' then ([s], r2) else (([] : List Char), r)
              | [] => (([] : List Char), r)
            let ds := r2.takeWhile Char.isDigit
            if ds.isEmpty then (([] : List Char), rest2)
            else (e :: (sgn ++ ds), r2.dropWhile Char.isDigit)
          else (([] : List Char), rest2)
        | [] => (([] : List Char), rest2)
      some (String.mk (neg ++ intPart ++ frac ++ expo), rest3)

mutual

/-- JSON value at the head of the input (no leading whitespace).  Fuel-based
recursion; `parsePy` supplies fuel exceeding any possible nesting.  Mirrors
`json.loads` including its `NaN`/`Infinity`/`-Infinity` extensions. -/
def parseVal : Nat → List Char → Option (Json × List Char)
  | 0, _ => none
  | fuel + 1, cs =>
    match cs with
    | [] => none
    | c :: rest =>
      if c = '"' then
        match parseStrBody (rest.length + 1) rest [] with
        | some (s, r) => some (Json.str s, r)
        | none => none
      else if c = lbr then
        let cs1 := rest.dropWhile jsonWs
        match cs1 with
        | d :: cs2 => if d = rbr then some (Json.obj [], cs2) else parseMembers fuel cs1 []
        | [] => none
      else if c = '[' then
        let cs1 := rest.dropWhile jsonWs
        match cs1 with
        | ']' :: cs2 => some (Json.arr [], cs2)
        | _ => parseElems fuel cs1 []
      else if startsWithL "true".toList cs then some (Json.bool true, cs.drop 4)
      else if startsWithL "false".toList cs then some (Json.bool false, cs.drop 5)
      else if startsWithL "null".toList cs then some (Json.null, cs.drop 4)
      else if startsWithL "NaN".toList cs then some (Json.num "NaN", cs.drop 3)
      else if startsWithL "Infinity".toList cs then some (Json.num "Infinity", cs.drop 8)
      else if startsWithL "-Infinity".toList cs then some (Json.num "-Infinity", cs.drop 9)
      else
        match parseNum cs with
        | some (l, r) => some (Json.num l, r)
        | none => none

/-- Members of a JSON object after the opening brace (nonempty case):
`ws key ws : ws value ws (, more | close)`. -/
def parseMembers : Nat → List Char → List (String × Json) → Option (Json × List Char)
  | 0, _, _ => none
  | fuel + 1, cs, acc =>
    match cs.dropWhile jsonWs with
    | '"' :: rest =>
      match parseStrBody (rest.length + 1) rest [] with
      | none => none
      | some (k, cs2) =>
        match cs2.dropWhile jsonWs with
        | ':' :: cs4 =>
          match parseVal fuel (cs4.dropWhile jsonWs) with
          | none => none
          | some (v, cs5) =>
            match cs5.dropWhile jsonWs with
            | ',' :: cs7 => parseMembers fuel cs7 (acc ++ [(k, v)])
            | d :: cs7 => if d = rbr then some (Json.obj (acc ++ [(k, v)]), cs7) else none
            | [] => none
        | _ => none
    | _ => none

/-- Elements of a JSON array after the opening bracket (nonempty case). -/
def parseElems : Nat → List Char → List Json → Option (Json × List Char)
  | 0, _, _ => none
  | fuel + 1, cs, acc =>
    match parseVal fuel (cs.dropWhile jsonWs) with
    | none => none
    | some (v, cs2) =>
      match cs2.dropWhile jsonWs with
      | ',' :: cs3 => parseElems fuel cs3 (acc ++ [v])
      | ']' :: cs3 => some (Json.arr (acc ++ [v]), cs3)
      | _ => none

end

/-- Model of Python's `json.loads`: optional surrounding whitespace around a
single JSON document; any trailing non-whitespace is an error ("Extra
data"). -/
def parsePy (cs : List Char) : Option Json :=
  match parseVal (2 * cs.length + 8) (cs.dropWhile jsonWs) with
  | some (v, rest) => if (rest.dropWhile jsonWs).isEmpty then some v else none
  | none => none

/-- The triple-backtick fence. -/
def fence3 : List Char := [bq, bq, bq]

/-- The fence with its `json` language tag. -/
def fenceJson : List Char := fence3 ++ "json".toList

/-- One step budgeted pass of Python's
`re.sub(r'LIT\s*|\s*LIT3', '', text)` where `LIT` is the first alternative's
literal (either ```` ```json ```` or ```` ``` ````) and `LIT3` is the bare
triple-backtick fence.  At each position the first alternative (the literal
followed by a greedy whitespace run) is tried, then the second (a greedy
whitespace run followed by the bare fence, which backtracking reduces to:
the maximal whitespace run from this position is immediately followed by
the fence); on a match the matched span is dropped and scanning resumes
after it, otherwise one character is kept.  Fuel is the input length, which
bounds the number of steps since every step consumes at least one
character. -/
def stripFenceAux (lit1 : List Char) : Nat → List Char → List Char
  | 0, cs => cs
  | fuel + 1, cs =>
    match cs with
    | [] => []
    | c :: rest =>
      if startsWithL lit1 cs then
        stripFenceAux lit1 fuel ((cs.drop lit1.length).dropWhile pySpaceChar)
      else
        let w := (cs.takeWhile pySpaceChar).length
        if startsWithL fence3 (cs.drop w) then
          stripFenceAux lit1 fuel (cs.drop (w + 3))
        else
          c :: stripFenceAux lit1 fuel rest

/-- Full substitution pass for one of the two `re.sub` calls of
`extract_json_objects`. -/
def stripFence (lit1 : List Char) (cs : List Char) : List Char :=
  stripFenceAux lit1 cs.length cs

/-- Key-presence test on a parsed object's entries: Python's
`"k" in obj`. -/
def hasKeyKvs (kvs : List (String × Json)) (k : String) : Bool :=
  kvs.any (fun p => p.1 = k)

/-- Value lookup on a parsed object's entries: Python's `obj["k"]`, where a
duplicated key keeps the last value (`dict` construction order). -/
def lookupLast (kvs : List (String × Json)) (k : String) : Option Json :=
  ((kvs.filter (fun p => p.1 = k)).getLast?).map (fun p => p.2)

/-- State of the brace scan of `extract_json_objects` (lines 709-729):
the running brace counter (a Python `int`, so it can go negative on stray
closing braces), the current candidate span accumulated in reverse when a
span is open (`start_index != -1`), and the objects kept so far. -/
structure ScanState where
  count : Int
  buf : Option (List Char)
  out : List Json

/-- One character of the brace scan.  A span opens at a `{` seen at depth 0,
every character inside an open span is accumulated, and when the depth
returns to 0 at a `}` the span is parsed; parsed objects containing the key
`tool` are kept, anything else (parse failure included) is skipped. -/
def scanStep (st : ScanState) (c : Char) : ScanState :=
  if c = lbr then
    if st.count = 0 then { count := 1, buf := some [c], out := st.out }
    else { count := st.count + 1, buf := st.buf.map (fun b => c :: b), out := st.out }
  else if c = rbr then
    match st.buf with
    | some b =>
      if st.count - 1 = 0 then
        { count := 0, buf := none,
          out :=
            match parsePy (c :: b).reverse with
            | some (Json.obj kvs) =>
              if hasKeyKvs kvs "tool" then st.out ++ [Json.obj kvs] else st.out
            | _ => st.out }
      else { count := st.count - 1, buf := some (c :: b), out := st.out }
    | none => { count := st.count - 1, buf := none, out := st.out }
  else
    { count := st.count, buf := st.buf.map (fun b => c :: b), out := st.out }

/-- The helper `extract_json_objects` of `send_message` (lines 703-730):
strip markdown fences with the two `re.sub` passes, then run the brace scan
and keep every balanced span that parses to an object with a `tool` key, in
source order. -/
def extract_json_objects (text : String) : List Json :=
  let clean := stripFence fence3 (stripFence fenceJson text.toList)
  (clean.foldl scanStep ⟨0, none, []⟩).out

/-- Element filter of the whole-text fallback (lines 741-744): keep parsed
objects that contain a `tool` key. -/
def isToolDict : Json → Bool
  | Json.obj kvs => hasKeyKvs kvs "tool"
  | _ => false

/-- The whole-text fallback parse of `send_message` (lines 736-748): strip
only the ```` ```json ````-tagged fences, parse the whole text as one JSON
value, and keep a list's object elements with a `tool` key, or the value
itself when it is such an object.  Any failure yields the empty list.  In
the source this value is computed before the orchestration loop and then
overwritten by the loop's own `extract_json_objects` call at line 758, so
it never reaches execution. -/
def fallback_extract (text : String) : List Json :=
  let clean := stripFence fenceJson text.toList
  match parsePy clean with
  | some (Json.arr elems) => elems.filter isToolDict
  | some (Json.obj kvs) => if hasKeyKvs kvs "tool" then [Json.obj kvs] else []
  | _ => []

mutual

/-- Python `repr` of a parsed JSON value (used inside containers by `str`),
with numeric formatting abstracted to the stored lexeme. -/
def pyRepr : Json → String
  | Json.null => "None"
  | Json.bool true => "True"
  | Json.bool false => "False"
  | Json.num l => l
  | Json.str s => sq ++ s ++ sq
  | Json.arr xs => "[" ++ pyReprElems xs ++ "]"
  | Json.obj kvs => "\x7b" ++ pyReprEntries kvs ++ "\x7d"

/-- Comma-separated `repr` of a list's elements. -/
def pyReprElems : List Json → String
  | [] => ""
  | [x] => pyRepr x
  | x :: y :: rest => pyRepr x ++ ", " ++ pyReprElems (y :: rest)

/-- Comma-separated `repr` of a dict's entries. -/
def pyReprEntries : List (String × Json) → String
  | [] => ""
  | [kv] => sq ++ kv.1 ++ sq ++ ": " ++ pyRepr kv.2
  | kv :: kv2 :: rest =>
    sq ++ kv.1 ++ sq ++ ": " ++ pyRepr kv.2 ++ ", " ++ pyReprEntries (kv2 :: rest)

end

/-- Python `str` of a parsed JSON value, as used by the f-string
`f"Error: Unknown tool '...' requested."`: a string prints bare, anything
else prints like `repr`. -/
def pyStr : Json → String
  | Json.str s => s
  | v => pyRepr v

/-- Python `type(x).__name__` for a parsed JSON value, used in the
keyword-expansion `TypeError` message. -/
def pyTypeName : Json → String
  | Json.null => "NoneType"
  | Json.bool _ => "bool"
  | Json.str _ => "str"
  | Json.arr _ => "list"
  | Json.obj _ => "dict"
  | Json.num l =>
    if l.any (fun c => c = '.' || c = 'e' || c = 'E') ||
       l = "NaN" || l = "Infinity" || l = "-Infinity" then "float" else "int"

/-- Description of the `TypeError` CPython raises when `handler(**params)`
is evaluated with a non-mapping `params` (the exact CPython prefix naming
the callable is abstracted; the mapping-requirement text is kept). -/
def starExpandMsg (p : Json) : String :=
  "argument after ** must be a mapping, not " ++ pyTypeName p

/-- The tool names with a branch in the dispatch chain of `send_message`
(lines 784-805); every other name falls to the unknown-tool branch at
line 807. -/
def known_tools : List String :=
  ["read_file", "peek_file", "write_file", "execute_shell", "create_directory",
   "list_directory", "check_file_exists", "manage_todo", "install_package",
   "copy_file", "analyze_image"]

/-- Outcome of calling one tool body with expanded keyword arguments:
either the string it returns, or the description of the exception it
raises (a body's own failure or a keyword-mismatch `TypeError` at the call
site). -/
inductive ToolOutcome where
  | ok (result : String)
  | err (msg : String)

/-- Behavior of the tool bodies, which the spec treats as external
collaborators: given the dispatched tool's name and its (object-valued)
parameters, the outcome of `handler(**params)`. -/
def ToolEnv := String → Json → ToolOutcome

/-- Message of the unknown-tool branch (line 807). -/
def unknown_tool_msg (nameVal : Json) : String :=
  "Error: Unknown tool " ++ sq ++ pyStr nameVal ++ sq ++ " requested."

/-- Message of the `except` clause around the dispatch chain (line 811). -/
def exec_error_msg (name : String) (e : String) : String :=
  "Error executing tool " ++ sq ++ name ++ sq ++ ": " ++ e

/-- The `try`/`elif` dispatch chain of `send_message` (lines 782-812): a
registered (string) name with object parameters calls its body and any
raised exception is caught into an error message; a registered name with
non-mapping parameters fails at `**` expansion inside the same `try`; any
other name produces the unknown-tool message.  Total by construction -
no exception leaves the dispatch. -/
def dispatch_tool (env : ToolEnv) (nameVal : Json) (params : Json) : String :=
  match nameVal with
  | Json.str name =>
    if known_tools.contains name then
      match params with
      | Json.obj _ =>
        match env name params with
        | ToolOutcome.ok s => s
        | ToolOutcome.err e => exec_error_msg name e
      | _ => exec_error_msg name (starExpandMsg params)
    else unknown_tool_msg (Json.str name)
  | v => unknown_tool_msg v

/-- One turn of the conversation history: a `{"role": ..., "content": ...}`
entry of `self.conversation_history` (or of a request's `messages`). -/
structure Msg where
  role : String
  content : String
deriving DecidableEq

/-- The per-batch tool loop of `send_message` (lines 777-816): each
extracted object that has both a `tool` and a `parameters` key is
dispatched and yields one `tool_output` turn; an object missing either key
is passed over with no dispatch and no turn. -/
def process_tool_calls (env : ToolEnv) : List Json → List Msg
  | [] => []
  | o :: rest =>
    (match o with
     | Json.obj kvs =>
       if hasKeyKvs kvs "tool" && hasKeyKvs kvs "parameters" then
         [⟨"tool_output",
           dispatch_tool env ((lookupLast kvs "tool").getD Json.null)
             ((lookupLast kvs "parameters").getD Json.null)⟩]
       else []
     | _ => []) ++ process_tool_calls env rest

/-- Result of one `send_message` call: the returned text, the final
`conversation_history`, and the trace of `messages` payloads of the model
requests issued, in order. -/
structure RunResult where
  result : String
  history : List Msg
  requests : List (List Msg)

/-- The `messages` list of the initial request (lines 668-674): the system
preamble, the existing conversation history, then the new user message. -/
def initial_payload (system_message : String) (history0 : List Msg)
    (user_message : String) : List Msg :=
  ⟨"system", system_message⟩ :: (history0 ++ [⟨"user", user_message⟩])

/-- The turn cap of the orchestration loop (line 751). -/
def max_turns : Nat := 10

/-- The `while turn < max_turns` loop of `send_message` (lines 754-846),
with `fuel = max_turns - turn` iterations remaining.  Each iteration
re-extracts the tool calls of the current response; with none it returns
the raw text unchanged; otherwise it appends the user turn, the assistant
turn and the batch's `tool_output` turns to the history and issues a
follow-up request whose payload is the system message plus the updated
history (line 822).  `model` abstracts the transport: every request
succeeds and yields the response text (the `except` branches at lines
843-851 are out of the claims' scope).  Exhausted fuel is the loop's exit
at line 846, returning the most recent response. -/
def send_message_loop (model : List Msg → String) (env : ToolEnv)
    (system_message : String) (user_message : String) :
    Nat → String → List Msg → List (List Msg) → RunResult
  | 0, raw, hist, reqs => ⟨raw, hist, reqs⟩
  | fuel + 1, raw, hist, reqs =>
    let objs := extract_json_objects raw
    if objs.isEmpty then ⟨raw, hist, reqs⟩
    else
      let hist1 := hist ++ [⟨"user", user_message⟩, ⟨"assistant", raw⟩] ++
        process_tool_calls env objs
      let payload := ⟨"system", system_message⟩ :: hist1
      send_message_loop model env system_message user_message fuel
        (model payload) hist1 (reqs ++ [payload])

/-- The whole of `send_message` (lines 579-846) as seen by the claims:
build the initial payload, receive the first response, then run the
orchestration loop.  (The pre-loop extraction and fallback at lines
732-748 are omitted here because the loop's first statement at line 758
recomputes `json_objects`, so their value is dead; `fallback_extract`
embeds them for the claims about that code.) -/
def send_message (model : List Msg → String) (env : ToolEnv)
    (system_message : String) (history0 : List Msg) (user_message : String) :
    RunResult :=
  let payload0 := initial_payload system_message history0 user_message
  send_message_loop model env system_message user_message max_turns
    (model payload0) history0 [payload0]

/-- The `switch_model` method (lines 570-577), with the list of available
model names (fetched from the network in the source) passed in, paired with
the session's `current_model` before the call; returns the printed message
and the `current_model` after the call. -/
def switch_model (available_models : List String) (current_model : String)
    (model_name : String) : String × String :=
  if available_models.contains model_name then
    ("Switched to model: " ++ model_name, model_name)
  else
    ("Model " ++ model_name ++ " not available. Available models: " ++
       String.intercalate ", " available_models, current_model)

/-! ### Generic lemmas about the orchestration loop -/

/-- Unfolding of one loop iteration. -/
lemma send_message_loop_succ (model : List Msg → String) (env : ToolEnv)
    (sys umsg : String) (fuel : Nat) (raw : String) (hist : List Msg)
    (reqs : List (List Msg)) :
    send_message_loop model env sys umsg (fuel + 1) raw hist reqs =
      if (extract_json_objects raw).isEmpty then ⟨raw, hist, reqs⟩
      else
        let hist1 := hist ++ [⟨"user", umsg⟩, ⟨"assistant", raw⟩] ++
          process_tool_calls env (extract_json_objects raw)
        let payload := ⟨"system", sys⟩ :: hist1
        send_message_loop model env sys umsg fuel (model payload) hist1
          (reqs ++ [payload]) := rfl

/-- The loop issues at most one follow-up request per remaining iteration. -/
lemma send_message_loop_requests_le (model : List Msg → String) (env : ToolEnv)
    (sys umsg : String) :
    ∀ (fuel : Nat) (raw : String) (hist : List Msg) (reqs : List (List Msg)),
      (send_message_loop model env sys umsg fuel raw hist reqs).requests.length ≤
        reqs.length + fuel := by
  intro fuel
  induction fuel with
  | zero => intro raw hist reqs; exact Nat.le_refl _
  | succ n ih =>
    intro raw hist reqs
    rw [send_message_loop_succ]
    by_cases h : (extract_json_objects raw).isEmpty
    · rw [if_pos h]; exact Nat.le_add_right _ _
    · rw [if_neg h]
      refine le_trans (ih _ _ _) ?_
      simp only [List.length_append, List.length_cons, List.length_nil]
      omega

/-- The loop only ever appends to the history it is given. -/
lemma send_message_loop_history_extends (model : List Msg → String) (env : ToolEnv)
    (sys umsg : String) :
    ∀ (fuel : Nat) (raw : String) (hist : List Msg) (reqs : List (List Msg)),
      ∃ t, (send_message_loop model env sys umsg fuel raw hist reqs).history =
        hist ++ t := by
  intro fuel
  induction fuel with
  | zero => intro raw hist reqs; exact ⟨[], (List.append_nil hist).symm⟩
  | succ n ih =>
    intro raw hist reqs
    rw [send_message_loop_succ]
    by_cases h : (extract_json_objects raw).isEmpty
    · rw [if_pos h]; exact ⟨[], (List.append_nil hist).symm⟩
    · rw [if_neg h]
      obtain ⟨t, ht⟩ := ih (model (⟨"system", sys⟩ :: (hist ++
          [⟨"user", umsg⟩, ⟨"assistant", raw⟩] ++
          process_tool_calls env (extract_json_objects raw))))
        (hist ++ [⟨"user", umsg⟩, ⟨"assistant", raw⟩] ++
          process_tool_calls env (extract_json_objects raw))
        (reqs ++ [⟨"system", sys⟩ :: (hist ++
          [⟨"user", umsg⟩, ⟨"assistant", raw⟩] ++
          process_tool_calls env (extract_json_objects raw))])
      exact ⟨[⟨"user", umsg⟩, ⟨"assistant", raw⟩] ++
        process_tool_calls env (extract_json_objects raw) ++ t,
        by rw [ht]; simp [List.append_assoc]⟩

/-- The loop only ever appends to the request trace it is given. -/
lemma send_message_loop_requests_extends (model : List Msg → String) (env : ToolEnv)
    (sys umsg : String) :
    ∀ (fuel : Nat) (raw : String) (hist : List Msg) (reqs : List (List Msg)),
      ∃ t, (send_message_loop model env sys umsg fuel raw hist reqs).requests =
        reqs ++ t := by
  intro fuel
  induction fuel with
  | zero => intro raw hist reqs; exact ⟨[], (List.append_nil reqs).symm⟩
  | succ n ih =>
    intro raw hist reqs
    rw [send_message_loop_succ]
    by_cases h : (extract_json_objects raw).isEmpty
    · rw [if_pos h]; exact ⟨[], (List.append_nil reqs).symm⟩
    · rw [if_neg h]
      obtain ⟨t, ht⟩ := ih (model (⟨"system", sys⟩ :: (hist ++
          [⟨"user", umsg⟩, ⟨"assistant", raw⟩] ++
          process_tool_calls env (extract_json_objects raw))))
        (hist ++ [⟨"user", umsg⟩, ⟨"assistant", raw⟩] ++
          process_tool_calls env (extract_json_objects raw))
        (reqs ++ [⟨"system", sys⟩ :: (hist ++
          [⟨"user", umsg⟩, ⟨"assistant", raw⟩] ++
          process_tool_calls env (extract_json_objects raw))])
      refine ⟨[⟨"system", sys⟩ :: (hist ++
          [⟨"user", umsg⟩, ⟨"assistant", raw⟩] ++
          process_tool_calls env (extract_json_objects raw))] ++ t, ?_⟩
      rw [ht]; simp [List.append_assoc]

/-- When every response the model service returns contains at least one
extractable tool call, the loop uses all its fuel, issuing exactly one
follow-up request per iteration, and finishes holding the response to the
last request it issued. -/
lemma send_message_loop_all_tools (model : List Msg → String) (env : ToolEnv)
    (sys umsg : String)
    (H : ∀ p : List Msg, extract_json_objects (model p) ≠ []) :
    ∀ (fuel : Nat) (raw : String) (hist : List Msg) (reqs : List (List Msg)),
      raw = model (reqs.getLastD []) →
      (send_message_loop model env sys umsg fuel raw hist reqs).requests.length =
        reqs.length + fuel ∧
      (send_message_loop model env sys umsg fuel raw hist reqs).result =
        model ((send_message_loop model env sys umsg fuel raw hist
          reqs).requests.getLastD []) := by
  intro fuel
  induction fuel with
  | zero => intro raw hist reqs hraw; exact ⟨rfl, hraw⟩
  | succ n ih =>
    intro raw hist reqs hraw
    have hne : (extract_json_objects raw).isEmpty = false := by
      rw [hraw]
      exact List.isEmpty_eq_false.mpr (H _)
    rw [send_message_loop_succ, hne]
    simp only [Bool.false_eq_true, if_false]
    have := ih (model (⟨"system", sys⟩ :: (hist ++
        [⟨"user", umsg⟩, ⟨"assistant", raw⟩] ++
        process_tool_calls env (extract_json_objects raw))))
      (hist ++ [⟨"user", umsg⟩, ⟨"assistant", raw⟩] ++
        process_tool_calls env (extract_json_objects raw))
      (reqs ++ [⟨"system", sys⟩ :: (hist ++
        [⟨"user", umsg⟩, ⟨"assistant", raw⟩] ++
        process_tool_calls env (extract_json_objects raw))])
      (by rw [List.getLastD_concat])
    refine ⟨?_, this.2⟩
    rw [this.1]
    simp only [List.length_append, List.length_cons, List.length_nil]
    omega

/-- Consequence at the `send_message` level: with tool calls in every
response, exactly `max_turns + 1` requests are issued and the returned text
is the response to the last of them, verbatim. -/
lemma send_message_all_tools (model : List Msg → String) (env : ToolEnv)
    (sys : String) (hist0 : List Msg) (umsg : String)
    (H : ∀ p : List Msg, extract_json_objects (model p) ≠ []) :
    (send_message model env sys hist0 umsg).requests.length = max_turns + 1 ∧
    (send_message model env sys hist0 umsg).result =
      model ((send_message model env sys hist0 umsg).requests.getLastD []) := by
  have := send_message_loop_all_tools model env sys umsg H max_turns
    (model (initial_payload sys hist0 umsg)) hist0
    [initial_payload sys hist0 umsg] (by simp)
  refine ⟨?_, this.2⟩
  rw [show (send_message model env sys hist0 umsg).requests =
    (send_message_loop model env sys umsg max_turns
      (model (initial_payload sys hist0 umsg)) hist0
      [initial_payload sys hist0 umsg]).requests from rfl, this.1]
  simp [Nat.add_comm]

/-- After a first response with a nonempty batch of tool calls, the run's
final history starts with the original history, the user turn, the
assistant turn and that batch's tool outputs, and at least one follow-up
request is issued. -/
lemma send_message_first_iteration (model : List Msg → String) (env : ToolEnv)
    (sys : String) (hist0 : List Msg) (umsg : String)
    (h : (extract_json_objects (model (initial_payload sys hist0 umsg))).isEmpty = false) :
    (∃ t, (send_message model env sys hist0 umsg).history =
      hist0 ++ [⟨"user", umsg⟩, ⟨"assistant", model (initial_payload sys hist0 umsg)⟩] ++
        process_tool_calls env
          (extract_json_objects (model (initial_payload sys hist0 umsg))) ++ t) ∧
    2 ≤ (send_message model env sys hist0 umsg).requests.length := by
  rw [show send_message model env sys hist0 umsg =
    send_message_loop model env sys umsg (9 + 1)
      (model (initial_payload sys hist0 umsg)) hist0
      [initial_payload sys hist0 umsg] from rfl]
  rw [send_message_loop_succ, h]
  simp only [Bool.false_eq_true, if_false]
  constructor
  · obtain ⟨t, ht⟩ := send_message_loop_history_extends model env sys umsg 9 _ _ _
    exact ⟨t, by rw [ht]⟩
  · obtain ⟨t, ht⟩ := send_message_loop_requests_extends model env sys umsg 9 _ _ _
    rw [ht]
    simp only [List.length_append, List.length_cons, List.length_nil]
    omega

/-! ### Lemmas about the dispatch chain -/

/-- A successful `obj[k]` lookup means `k in obj` holds. -/
lemma hasKeyKvs_of_lookupLast {kvs : List (String × Json)} {k : String} {v : Json}
    (h : lookupLast kvs k = some v) : hasKeyKvs kvs k = true := by
  unfold lookupLast at h
  unfold hasKeyKvs
  cases hf : (kvs.filter (fun p => p.1 = k)).getLast? with
  | none => rw [hf] at h; simp at h
  | some p =>
    have hmem : p ∈ kvs.filter (fun p => p.1 = k) := List.mem_of_mem_getLast? hf
    rw [List.mem_filter] at hmem
    exact List.any_eq_true.mpr ⟨p, hmem.1, hmem.2⟩

/-- The batch loop processes a concatenation piecewise. -/
lemma process_tool_calls_append (env : ToolEnv) (l1 l2 : List Json) :
    process_tool_calls env (l1 ++ l2) =
      process_tool_calls env l1 ++ process_tool_calls env l2 := by
  induction l1 with
  | nil => simp [process_tool_calls]
  | cons o rest ih =>
    simp only [List.cons_append, process_tool_calls, List.append_eq, ih,
      List.append_assoc]

/-- A batch element with both keys produces exactly one dispatched
`tool_output` turn. -/
lemma process_tool_calls_single (env : ToolEnv) (kvs : List (String × Json))
    (h1 : hasKeyKvs kvs "tool" = true) (h2 : hasKeyKvs kvs "parameters" = true) :
    process_tool_calls env [Json.obj kvs] =
      [⟨"tool_output",
        dispatch_tool env ((lookupLast kvs "tool").getD Json.null)
          ((lookupLast kvs "parameters").getD Json.null)⟩] := by
  simp [process_tool_calls, h1, h2]

/-- A batch element missing the `parameters` key produces nothing: it is
never dispatched. -/
lemma process_tool_calls_skip (env : ToolEnv) (kvs : List (String × Json))
    (h2 : hasKeyKvs kvs "parameters" = false) :
    process_tool_calls env [Json.obj kvs] = [] := by
  simp [process_tool_calls, h2]

/-- Test for the object constructor, mirroring Python's
`isinstance(x, dict)`. -/
def isObj : Json → Bool
  | Json.obj _ => true
  | _ => false

/-- Dispatch of a registered name with object parameters whose handler
raises: the exception is converted to the `except`-clause message. -/
lemma dispatch_tool_known_err (env : ToolEnv) (name : String) (p : Json) (e : String)
    (hk : known_tools.contains name = true) (hp : isObj p = true)
    (he : env name p = ToolOutcome.err e) :
    dispatch_tool env (Json.str name) p = exec_error_msg name e := by
  have hk2 : name ∈ known_tools := by simpa using hk
  cases p <;> simp [isObj] at hp
  simp [dispatch_tool, hk2, he]

/-- Dispatch of a registered name with non-mapping parameters: the `**`
expansion failure is caught into the `except`-clause message. -/
lemma dispatch_tool_known_nonobj (env : ToolEnv) (name : String) (p : Json)
    (hk : known_tools.contains name = true) (hp : isObj p = false) :
    dispatch_tool env (Json.str name) p = exec_error_msg name (starExpandMsg p) := by
  have hk2 : name ∈ known_tools := by simpa using hk
  cases p <;> simp [isObj] at hp <;> simp [dispatch_tool, hk2]

/-- Dispatch of an unregistered name: the unknown-tool message, with no
handler consulted. -/
lemma dispatch_tool_unknown (env : ToolEnv) (name : String) (p : Json)
    (hk : known_tools.contains name = false) :
    dispatch_tool env (Json.str name) p =
      "Error: Unknown tool " ++ sq ++ name ++ sq ++ " requested." := by
  have hk2 : name ∉ known_tools := by simpa using hk
  simp [dispatch_tool, hk2, unknown_tool_msg, pyStr]

/-! ### Concrete fixtures: scripted model responses and tool behaviors -/

/-- The spec's example tool call,
`{"tool": "list_directory", "parameters": {}}`. -/
def callText : String :=
  "\x7b\"tool\": \"list_directory\", \"parameters\": \x7b\x7d\x7d"

/-- The parsed form of `callText`. -/
def callObj : Json :=
  Json.obj [("tool", Json.str "list_directory"), ("parameters", Json.obj [])]

/-- Tool bodies that always return `"ok"`. -/
def okEnv : ToolEnv := fun _ _ => ToolOutcome.ok "ok"

/-- A model whose every response is the single tool call `callText`. -/
def constCallModel : List Msg → String := fun _ => callText

/-- Extraction of the example call, evaluated. -/
lemma callText_extract : extract_json_objects callText = [callObj] := rfl

/-- Tool bodies that always return `"dir listing"`. -/
def listEnv : ToolEnv := fun _ _ => ToolOutcome.ok "dir listing"

/-- The scripted two-turn model: before any tool output is in the payload
it answers with one tool call, afterwards with plain text. -/
def twoTurnModel : List Msg → String := fun msgs =>
  if msgs.any (fun m => m.role == "tool_output") then "All done." else callText

/-- The spec's markdown-fenced example input: the prose line
`I will check.`, a newline, a json-tagged triple-backtick fence, the
example call, and a closing fence. -/
def fencedText : String := "I will check.\n```json\n" ++ callText ++ "\n```"

/-- A tool-call object with no `parameters` key. -/
def noParamsText : String := "\x7b\"tool\": \"list_directory\"\x7d"

/-- Scripted model: first the parameterless call, then plain text. -/
def noParamsModel : List Msg → String := fun msgs =>
  if msgs.any (fun m => m.role == "assistant") then "done" else noParamsText

/-- A tool-call object whose `parameters` value is an array. -/
def arrParamsText : String := "\x7b\"tool\": \"read_file\", \"parameters\": [1]\x7d"

/-- The parsed form of `arrParamsText`. -/
def arrParamsObj : Json :=
  Json.obj [("tool", Json.str "read_file"), ("parameters", Json.arr [Json.num "1"])]

/-- A well-formed tool call whose `content` argument holds a literal `}`:
the brace scan desynchronizes on it (its only balanced span is truncated
mid-string and fails to parse), while the whole text is valid JSON, so only
the whole-text fallback can find the call. -/
def bracedStrText : String :=
  "\x7b\"tool\": \"write_file\", \"parameters\": \x7b\"content\": \"\x7d\"\x7d\x7d"

/-- A response carrying two tool calls separated by prose. -/
def twoCallText : String :=
  "\x7b\"tool\": \"read_file\", \"parameters\": \x7b\"file_path\": \"a\"\x7d\x7d and " ++
    callText

/-- The parsed first call of `twoCallText`. -/
def readCallKvs : List (String × Json) :=
  [("tool", Json.str "read_file"), ("parameters", Json.obj [("file_path", Json.str "a")])]

/-- Tool bodies where `read_file` raises and everything else returns. -/
def failingEnv : ToolEnv := fun name _ =>
  if name == "read_file" then ToolOutcome.err "boom" else ToolOutcome.ok "ok"

/-- Scripted model: first the two-call batch, then plain text. -/
def twoCallModel : List Msg → String := fun msgs =>
  if msgs.any (fun m => m.role == "assistant") then "done" else twoCallText

/-- The spec's typo example: a call whose tool name `write_fil` is
unregistered. -/
def typoText : String :=
  "\x7b\"tool\":\"write_fil\",\"parameters\":\x7b\"file_path\":\"a.txt\",\"content\":\"hi\"\x7d\x7d"

/-- The parsed entries of `typoText`. -/
def typoKvs : List (String × Json) :=
  [("tool", Json.str "write_fil"),
   ("parameters", Json.obj [("file_path", Json.str "a.txt"), ("content", Json.str "hi")])]

/-- Scripted model: first the typo call, then plain text. -/
def typoModel : List Msg → String := fun msgs =>
  if msgs.any (fun m => m.role == "assistant") then "done" else typoText

/-- A model that answers plain prose with no tool call. -/
def plainModel : List Msg → String := fun _ => "Hello!"

/-! ### The claims -/

/-- Claim C1, counterexample: with a scripted model whose every response is
a single tool call, one `send_message` call issues 11 model requests (the
initial one plus one follow-up per loop iteration), exceeding the
configured cap `max_turns = 10` that the claim states as the bound. -/
theorem c1_counterexample :
    (send_message constCallModel okEnv "SYS" [] "hi").requests.length = 11 ∧
    ¬ (send_message constCallModel okEnv "SYS" [] "hi").requests.length ≤ max_turns := by
  have H : ∀ p : List Msg, extract_json_objects (constCallModel p) ≠ [] := by
    intro p
    rw [show constCallModel p = callText from rfl, callText_extract]
    exact List.cons_ne_nil _ _
  have h := send_message_all_tools constCallModel okEnv "SYS" [] "hi" H
  exact ⟨h.1, by rw [h.1]; decide⟩

/-- Claim C1 (amended): a single `send_message` call issues at most
`max_turns + 1` model requests - the initial request plus at most one
follow-up per iteration of the turn-capped loop - and when every response
contains tool calls it issues exactly `max_turns + 1` requests and returns
the most recently received raw model text verbatim (the response to the
last request issued). -/
theorem c1_turn_cap (model : List Msg → String) (env : ToolEnv) (sys : String)
    (hist0 : List Msg) (umsg : String) :
    (send_message model env sys hist0 umsg).requests.length ≤ max_turns + 1 ∧
    ((∀ p : List Msg, extract_json_objects (model p) ≠ []) →
      (send_message model env sys hist0 umsg).requests.length = max_turns + 1 ∧
      (send_message model env sys hist0 umsg).result =
        model ((send_message model env sys hist0 umsg).requests.getLastD [])) := by
  constructor
  · have h := send_message_loop_requests_le model env sys umsg max_turns
      (model (initial_payload sys hist0 umsg)) hist0 [initial_payload sys hist0 umsg]
    rw [show send_message model env sys hist0 umsg =
      send_message_loop model env sys umsg max_turns
        (model (initial_payload sys hist0 umsg)) hist0
        [initial_payload sys hist0 umsg] from rfl]
    simp only [List.length_cons, List.length_nil] at h
    omega
  · intro H
    exact send_message_all_tools model env sys hist0 umsg H

/-- Witness for C1 (amended) at the scripted all-tool-calls model. -/
theorem c1_turn_cap_witness :
    (send_message constCallModel okEnv "SYS" [] "hi").requests.length ≤ max_turns + 1 ∧
    (send_message constCallModel okEnv "SYS" [] "hi").result =
      constCallModel
        ((send_message constCallModel okEnv "SYS" [] "hi").requests.getLastD []) :=
  ⟨(c1_turn_cap constCallModel okEnv "SYS" [] "hi").1,
   ((c1_turn_cap constCallModel okEnv "SYS" [] "hi").2
     (fun p => by
       rw [show constCallModel p = callText from rfl, callText_extract]
       exact List.cons_ne_nil _ _)).2⟩

/-- Claim C2, counterexample: in the scripted two-turn exchange the final
output is turn 2's text, but the conversation history never receives the
assistant turn holding the second response - the loop returns a
no-tool-call response without appending it - so the claimed four-turn
history is false. -/
theorem c2_counterexample :
    (send_message twoTurnModel listEnv "SYS" [] "hi").result = "All done." ∧
    (⟨"assistant", "All done."⟩ : Msg) ∉
      (send_message twoTurnModel listEnv "SYS" [] "hi").history := by
  refine ⟨rfl, ?_⟩
  have e : (send_message twoTurnModel listEnv "SYS" [] "hi").history =
      [⟨"user", "hi"⟩, ⟨"assistant", callText⟩, ⟨"tool_output", "dir listing"⟩] := rfl
  rw [e]
  decide

/-- Claim C2 (amended): the scripted two-turn exchange returns turn 2's
text, and the history afterwards contains, in order, exactly the user
turn, the assistant turn holding the first response, and the tool-result
turn of the executed call (the second assistant turn is not appended); the
tool-result turn is already part of the second request's payload, i.e. it
was appended before the next model request was issued. -/
theorem c2_round_trip :
    send_message twoTurnModel listEnv "SYS" [] "hi" =
      ⟨"All done.",
       [⟨"user", "hi"⟩, ⟨"assistant", callText⟩, ⟨"tool_output", "dir listing"⟩],
       [[⟨"system", "SYS"⟩, ⟨"user", "hi"⟩],
        [⟨"system", "SYS"⟩, ⟨"user", "hi"⟩, ⟨"assistant", callText⟩,
         ⟨"tool_output", "dir listing"⟩]]⟩ := rfl

/-- Claim C8: the markdown-fenced example input yields exactly one tool
call, named `list_directory` with empty-object parameters. -/
theorem c8_fenced_extraction : extract_json_objects fencedText = [callObj] := rfl

/-- Claim C9: when the first response contains no extractable tool calls,
`send_message` returns that response's text and the conversation history
is completely unchanged - neither the user turn nor the assistant turn is
appended (appending only happens on iterations that extracted at least one
tool call); exactly one model request is issued. -/
theorem c9_no_tool_calls_frame (model : List Msg → String) (env : ToolEnv)
    (sys : String) (hist0 : List Msg) (umsg : String)
    (h : extract_json_objects (model (initial_payload sys hist0 umsg)) = []) :
    send_message model env sys hist0 umsg =
      ⟨model (initial_payload sys hist0 umsg), hist0,
       [initial_payload sys hist0 umsg]⟩ := by
  rw [show send_message model env sys hist0 umsg =
    send_message_loop model env sys umsg (9 + 1)
      (model (initial_payload sys hist0 umsg)) hist0
      [initial_payload sys hist0 umsg] from rfl]
  rw [send_message_loop_succ, h]
  rfl

/-- Witness for C9 at a model answering plain prose. -/
theorem c9_no_tool_calls_frame_witness :
    send_message plainModel okEnv "SYS" [⟨"user", "old"⟩] "hi" =
      ⟨plainModel (initial_payload "SYS" [⟨"user", "old"⟩] "hi"), [⟨"user", "old"⟩],
       [initial_payload "SYS" [⟨"user", "old"⟩] "hi"]⟩ :=
  c9_no_tool_calls_frame plainModel okEnv "SYS" [⟨"user", "old"⟩] "hi" rfl

/-- Claim C10: `switch_model` changes `current_model` only on success - an
unavailable name returns the error message listing the available models
and leaves `current_model` unchanged, an available name returns the
success message and sets `current_model` to exactly that name. -/
theorem c10_switch_model (available_models : List String)
    (current_model model_name : String) :
    (available_models.contains model_name = false →
      switch_model available_models current_model model_name =
        ("Model " ++ model_name ++ " not available. Available models: " ++
          String.intercalate ", " available_models, current_model)) ∧
    (available_models.contains model_name = true →
      switch_model available_models current_model model_name =
        ("Switched to model: " ++ model_name, model_name)) := by
  constructor
  · intro h
    have h2 : model_name ∉ available_models := by simpa using h
    simp [switch_model, h2]
  · intro h
    have h2 : model_name ∈ available_models := by simpa using h
    simp [switch_model, h2]

/-- Witness for C10 at a concrete model list, exercising both branches. -/
theorem c10_switch_model_witness :
    switch_model ["llama3.2:3b"] "qwen3-coder:30b" "phi3" =
      ("Model phi3 not available. Available models: llama3.2:3b",
       "qwen3-coder:30b") ∧
    switch_model ["llama3.2:3b"] "qwen3-coder:30b" "llama3.2:3b" =
      ("Switched to model: llama3.2:3b", "llama3.2:3b") :=
  ⟨(c10_switch_model ["llama3.2:3b"] "qwen3-coder:30b" "phi3").1 rfl,
   (c10_switch_model ["llama3.2:3b"] "qwen3-coder:30b" "llama3.2:3b").2 rfl⟩

/-- Claim C3, counterexample: the candidate with a `tool` key and no
`parameters` key is kept by extraction, but the dispatch loop skips it at
the key check of line 778 - the run executes no tool and produces no
tool-result turn, contrary to the claimed default-to-empty-object
dispatch. -/
theorem c3_counterexample :
    extract_json_objects noParamsText = [Json.obj [("tool", Json.str "list_directory")]] ∧
    (send_message noParamsModel okEnv "SYS" [] "hi").history.filter
      (fun m => m.role == "tool_output") = [] ∧
    (send_message noParamsModel okEnv "SYS" [] "hi").history =
      [⟨"user", "hi"⟩, ⟨"assistant", noParamsText⟩] :=
  ⟨rfl, rfl, rfl⟩

/-- Claim C3 (amended): a parsed object with a `tool` key but no
`parameters` key is kept by extraction but silently passed over at
dispatch - the batch loop produces no tool-result turn for it and invokes
no handler - while the nonempty batch still makes the loop append the user
and assistant turns and issue a follow-up model request. -/
theorem c3_missing_parameters (env : ToolEnv) (kvs : List (String × Json))
    (pre post : List Json)
    (_h1 : hasKeyKvs kvs "tool" = true)
    (h2 : hasKeyKvs kvs "parameters" = false) :
    process_tool_calls env (pre ++ Json.obj kvs :: post) =
      process_tool_calls env pre ++ process_tool_calls env post ∧
    ∀ (model : List Msg → String) (sys : String) (hist0 : List Msg) (umsg : String),
      extract_json_objects (model (initial_payload sys hist0 umsg)) =
        pre ++ Json.obj kvs :: post →
      2 ≤ (send_message model env sys hist0 umsg).requests.length := by
  constructor
  · rw [show pre ++ Json.obj kvs :: post = pre ++ [Json.obj kvs] ++ post by simp]
    rw [process_tool_calls_append, process_tool_calls_append,
      process_tool_calls_skip env kvs h2]
    simp
  · intro model sys hist0 umsg hx
    exact (send_message_first_iteration model env sys hist0 umsg
      (by rw [hx]; simp)).2

/-- Witness for C3 (amended) at the concrete parameterless candidate. -/
theorem c3_missing_parameters_witness :
    process_tool_calls okEnv
        ([] ++ Json.obj [("tool", Json.str "list_directory")] :: []) =
      process_tool_calls okEnv [] ++ process_tool_calls okEnv [] ∧
    2 ≤ (send_message noParamsModel okEnv "SYS" [] "hi").requests.length :=
  ⟨(c3_missing_parameters okEnv [("tool", Json.str "list_directory")] [] []
      rfl rfl).1,
   (c3_missing_parameters okEnv [("tool", Json.str "list_directory")] [] []
      rfl rfl).2 noParamsModel "SYS" [] "hi" rfl⟩

/-- Claim C4, counterexample: the candidate whose `parameters` value is the
array `[1]` is kept by extraction (not discarded) and does reach dispatch,
where the keyword expansion fails and is caught into an error tool-result
turn. -/
theorem c4_counterexample :
    extract_json_objects arrParamsText = [arrParamsObj] ∧
    process_tool_calls okEnv [arrParamsObj] =
      [⟨"tool_output",
        exec_error_msg "read_file" (starExpandMsg (Json.arr [Json.num "1"]))⟩] :=
  ⟨rfl, rfl⟩

/-- Claim C4 (amended): extraction keeps a candidate regardless of the
shape of its `parameters` value; a kept candidate with a registered tool
name and a non-mapping `parameters` value is dispatched, and the failure
of the `**` keyword expansion is caught at the dispatch boundary and
converted into an error tool-result turn (it is not discarded during
extraction). -/
theorem c4_nonobject_parameters (env : ToolEnv) (kvs : List (String × Json))
    (name : String) (p : Json)
    (ht : lookupLast kvs "tool" = some (Json.str name))
    (hk : known_tools.contains name = true)
    (hp : lookupLast kvs "parameters" = some p)
    (hobj : isObj p = false) :
    process_tool_calls env [Json.obj kvs] =
      [⟨"tool_output", exec_error_msg name (starExpandMsg p)⟩] := by
  rw [process_tool_calls_single env kvs (hasKeyKvs_of_lookupLast ht)
    (hasKeyKvs_of_lookupLast hp), ht, hp]
  simp only [Option.getD_some]
  rw [dispatch_tool_known_nonobj env name p hk hobj]

/-- Witness for C4 (amended) at the concrete array-parameters candidate. -/
theorem c4_nonobject_parameters_witness :
    process_tool_calls okEnv
        [Json.obj [("tool", Json.str "read_file"),
                   ("parameters", Json.arr [Json.num "1"])]] =
      [⟨"tool_output",
        exec_error_msg "read_file" (starExpandMsg (Json.arr [Json.num "1"]))⟩] :=
  c4_nonobject_parameters okEnv
    [("tool", Json.str "read_file"), ("parameters", Json.arr [Json.num "1"])]
    "read_file" (Json.arr [Json.num "1"]) rfl rfl rfl rfl

/-- Claim C5 is about code the spec intends but the source never runs: the
fallback does find the call in `bracedStrText` (whose balanced-span scan
yields nothing while the whole text is one valid tool-call object), yet
`send_message` returns the raw text at once with no tool executed, no
history change and no further request, because the fallback's result
(computed before the loop, lines 736-748) is overwritten by the loop's own
re-extraction at line 758. -/
theorem c5_fallback_dead :
    extract_json_objects bracedStrText = [] ∧
    fallback_extract bracedStrText =
      [Json.obj [("tool", Json.str "write_file"),
                 ("parameters", Json.obj [("content", Json.str "\x7d")])]] ∧
    send_message (fun _ => bracedStrText) okEnv "SYS" [] "hi" =
      ⟨bracedStrText, [], [[⟨"system", "SYS"⟩, ⟨"user", "hi"⟩]]⟩ :=
  ⟨rfl, rfl, rfl⟩

/-- Claim C6: a handler that raises on call `i` of a batch has its
exception caught at the dispatch boundary and converted into an error
tool-result turn carrying the failure's description; the calls before and
after it in the batch are processed exactly as they otherwise would be,
and the loop then still issues a follow-up model request rather than
terminating the session. -/
theorem c6_handler_error_containment (env : ToolEnv) (pre post : List Json)
    (kvs : List (String × Json)) (name : String) (p : Json) (e : String)
    (ht : lookupLast kvs "tool" = some (Json.str name))
    (hk : known_tools.contains name = true)
    (hp : lookupLast kvs "parameters" = some p)
    (hobj : isObj p = true)
    (he : env name p = ToolOutcome.err e) :
    process_tool_calls env (pre ++ Json.obj kvs :: post) =
      process_tool_calls env pre ++
        ⟨"tool_output", exec_error_msg name e⟩ :: process_tool_calls env post ∧
    ∀ (model : List Msg → String) (sys : String) (hist0 : List Msg) (umsg : String),
      extract_json_objects (model (initial_payload sys hist0 umsg)) =
        pre ++ Json.obj kvs :: post →
      2 ≤ (send_message model env sys hist0 umsg).requests.length := by
  constructor
  · rw [show pre ++ Json.obj kvs :: post = pre ++ [Json.obj kvs] ++ post by simp]
    rw [process_tool_calls_append, process_tool_calls_append,
      process_tool_calls_single env kvs (hasKeyKvs_of_lookupLast ht)
        (hasKeyKvs_of_lookupLast hp), ht, hp]
    simp only [Option.getD_some]
    rw [dispatch_tool_known_err env name p e hk hobj he]
    simp
  · intro model sys hist0 umsg hx
    exact (send_message_first_iteration model env sys hist0 umsg
      (by rw [hx]; simp)).2

/-- Witness for C6 at the concrete two-call batch whose first handler
raises. -/
theorem c6_handler_error_containment_witness :
    process_tool_calls failingEnv ([] ++ Json.obj readCallKvs :: [callObj]) =
      process_tool_calls failingEnv [] ++
        ⟨"tool_output", exec_error_msg "read_file" "boom"⟩ ::
          process_tool_calls failingEnv [callObj] ∧
    2 ≤ (send_message twoCallModel failingEnv "SYS" [] "hi").requests.length :=
  ⟨(c6_handler_error_containment failingEnv [] [callObj] readCallKvs
      "read_file" (Json.obj [("file_path", Json.str "a")]) "boom"
      rfl rfl rfl rfl rfl).1,
   (c6_handler_error_containment failingEnv [] [callObj] readCallKvs
      "read_file" (Json.obj [("file_path", Json.str "a")]) "boom"
      rfl rfl rfl rfl rfl).2 twoCallModel "SYS" [] "hi" rfl⟩

/-- Claim C7: an extracted call whose name matches no registered handler
yields an error tool result naming the unknown tool - by construction of
the dispatch function, which never raises - and the loop appends that
result to the history right after the user and assistant turns and still
issues a follow-up model request rather than aborting the exchange. -/
theorem c7_unknown_tool (model : List Msg → String) (env : ToolEnv) (sys : String)
    (hist0 : List Msg) (umsg : String) (kvs : List (String × Json))
    (name : String) (p : Json)
    (ht : lookupLast kvs "tool" = some (Json.str name))
    (hk : known_tools.contains name = false)
    (hp : lookupLast kvs "parameters" = some p)
    (hx : extract_json_objects (model (initial_payload sys hist0 umsg)) =
      [Json.obj kvs]) :
    (∃ t, (send_message model env sys hist0 umsg).history =
      hist0 ++ [⟨"user", umsg⟩, ⟨"assistant", model (initial_payload sys hist0 umsg)⟩,
        ⟨"tool_output",
          "Error: Unknown tool " ++ sq ++ name ++ sq ++ " requested."⟩] ++ t) ∧
    2 ≤ (send_message model env sys hist0 umsg).requests.length := by
  have h := send_message_first_iteration model env sys hist0 umsg (by rw [hx]; simp)
  refine ⟨?_, h.2⟩
  obtain ⟨t, ht2⟩ := h.1
  refine ⟨t, ?_⟩
  rw [ht2, hx,
    process_tool_calls_single env kvs (hasKeyKvs_of_lookupLast ht)
      (hasKeyKvs_of_lookupLast hp), ht, hp]
  simp only [Option.getD_some]
  rw [dispatch_tool_unknown env name _ hk]
  simp

/-- Witness for C7 at the spec's `write_fil` typo example. -/
theorem c7_unknown_tool_witness :
    (∃ t, (send_message typoModel okEnv "SYS" [] "hi").history =
      [] ++ [⟨"user", "hi"⟩,
        ⟨"assistant", typoModel (initial_payload "SYS" [] "hi")⟩,
        ⟨"tool_output",
          "Error: Unknown tool " ++ sq ++ "write_fil" ++ sq ++ " requested."⟩] ++ t) ∧
    2 ≤ (send_message typoModel okEnv "SYS" [] "hi").requests.length :=
  c7_unknown_tool typoModel okEnv "SYS" [] "hi" typoKvs "write_fil"
    (Json.obj [("file_path", Json.str "a.txt"), ("content", Json.str "hi")])
    rfl rfl rfl rfl

end PortableAgent
